import Mathlib

/-!
# Verification of the Gridify pipeline (`src/app.py`)

A shallow embedding of the Shopify image-grid application: the URL
normalizer `clean_shopify_url`, the catalog fetcher
`fetch_shopify_products`, the image extractor `extract_images`, and the
grid-rendering loop of the main UI block.  Python strings are modelled as
`List Char` (`PyStr`), JSON values as the inductive `Json`, and Python
exceptions as `Except PyExc`.  The behaviour of the CPython 3.11 standard
library (`str.strip`, `str.startswith`, `urllib.parse.urlparse`) is
embedded where the application relies on it.
-/

set_option autoImplicit false

namespace Gridify

/-- Python `str` modelled as a list of characters. -/
abbrev PyStr := List Char

/-- The characters for which CPython `str.isspace()` is true; this is the
set stripped by `str.strip()` with no arguments. -/
def pyIsSpace (c : Char) : Bool :=
  decide (c ∈ [' ', '\t', '\n', '\x0b', '\x0c', '\r',
               '\x1c', '\x1d', '\x1e', '\x1f', '\x85', '\xa0',
               ' ', ' ', ' ', ' ', ' ', ' ',
               ' ', ' ', ' ', ' ', ' ', ' ',
               ' ', ' ', ' ', ' ', '　'])

/-- Python `str.lstrip`: drop the longest prefix of characters satisfying `p`. -/
def pyLStrip (p : Char → Bool) (s : PyStr) : PyStr := s.dropWhile p

/-- Python `str.rstrip`: drop the longest suffix of characters satisfying `p`. -/
def pyRStrip (p : Char → Bool) (s : PyStr) : PyStr := (s.reverse.dropWhile p).reverse

/-- Python `str.strip()` with no arguments (both ends, whitespace). -/
def pyStrip (s : PyStr) : PyStr := pyRStrip pyIsSpace (pyLStrip pyIsSpace s)

/-- Python `str.startswith`. -/
def pyStartsWith (pre s : PyStr) : Bool := decide (pre <+: s)

/-- Python `str.endswith`. -/
def pyEndsWith (suf s : PyStr) : Bool := decide (suf <:+ s)

/-- Python `str.find` restricted to a single character: index of the first
occurrence, `none` when absent (CPython returns `-1`). -/
def findCharIdx (c : Char) : PyStr → Option Nat
  | [] => none
  | d :: s => if d = c then some 0 else (findCharIdx c s).map (fun i => i + 1)

/-! ## `urllib.parse.urlparse`, as used by `clean_shopify_url`

The application only reads `parsed.scheme` and `parsed.netloc`, so the
model computes exactly those two components, following CPython 3.11
`urllib.parse.urlsplit`. -/

/-- The characters removed from a URL by `urlsplit`
(`_UNSAFE_URL_BYTES_TO_REMOVE` = tab, CR, LF). -/
def urlUnsafeChar (c : Char) : Bool := c == '\t' || c == '\r' || c == '\n'

/-- `urlsplit` removes every tab/CR/LF from the URL before parsing. -/
def removeTabCrLf (s : PyStr) : PyStr := s.filter (fun c => !urlUnsafeChar c)

/-- WHATWG C0-control-or-space set: `urlsplit` lstrips these from the URL. -/
def c0OrSpace (c : Char) : Bool := c.toNat ≤ 0x20

/-- Characters that terminate the netloc component (`_splitnetloc`
scans for the earliest of `/`, `?`, `#`). -/
def netlocStop (c : Char) : Bool := c == '/' || c == '?' || c == '#'

/-- CPython `scheme_chars`: ASCII letters, digits, `+`, `-`, `.`. -/
def isSchemeChar (c : Char) : Bool := c.isAlpha || c.isDigit || c == '+' || c == '-' || c == '.'

/-- The scheme-splitting step of `urlsplit`: when the text before the first
`:` is a well-formed scheme (nonempty, leading ASCII letter, scheme
characters only), split it off and lowercase it; otherwise the scheme
defaults to the empty string.  Lowercasing uses `Char.toLower`, which
agrees with Python `str.lower` on the ASCII-only scheme characters. -/
def splitScheme (url : PyStr) : PyStr × PyStr :=
  match findCharIdx ':' url with
  | some i =>
      if 0 < i
         && (match url.head? with | some c => c.isAlpha | none => false)
         && (url.take i).all isSchemeChar
      then ((url.take i).map Char.toLower, url.drop (i + 1))
      else ([], url)
  | none => ([], url)

/-- `netloc.partition('[')[2].partition(']')[0]`: the text between the
first `[` and the following `]`. -/
def bracketedHost (netloc : PyStr) : PyStr :=
  ((netloc.dropWhile (fun c => !(c == '['))).tail).takeWhile (fun c => !(c == ']'))

/-- A decimal octet as accepted by `ipaddress.IPv4Address`: 1–3 digits,
no leading zero, value ≤ 255. -/
def validIPv4Octet (s : PyStr) : Bool :=
  s.length > 0 && s.length ≤ 3 && s.all Char.isDigit
    && (s.length = 1 || s.head? ≠ some '0')
    && (String.mk s).toNat! ≤ 255

/-- A dotted-quad IPv4 address as accepted by `ipaddress.IPv4Address`. -/
def validIPv4 (s : PyStr) : Bool :=
  let parts := s.splitOn '.'
  parts.length = 4 && parts.all validIPv4Octet

/-- Hex digit test for IPv6 groups. -/
def isHexDig (c : Char) : Bool :=
  c.isDigit || ('a' ≤ c && c ≤ 'f') || ('A' ≤ c && c ≤ 'F')

/-- A textual IPv6 address (approximating `ipaddress.IPv6Address`):
groups of 1–4 hex digits separated by `:`, at most one `::`, eight groups
in total (fewer only with `::`), with an optional trailing dotted-quad
counting for two groups.  Scope identifiers (`%zone`) are not modelled.
Only the bracketed-host branch below uses this predicate, and no theorem
in this file depends on that branch. -/
def validIPv6 (s : PyStr) : Bool :=
  let hasCompress : Bool := decide ("::".data <:+: s)
  let groups := s.splitOn ':'
  let emptyCount := (groups.filter List.isEmpty).length
  let lastIsV4 := match groups.getLast? with
    | some g => validIPv4 g
    | none => false
  let groupOk := groups.all (fun g =>
    g.isEmpty || (g.length ≤ 4 && g.all isHexDig) || validIPv4 g)
  let fullGroups := (groups.filter (fun g => !g.isEmpty)).length
  let effective := fullGroups + (if lastIsV4 then 1 else 0)
  groupOk
    && (if hasCompress then emptyCount ≤ 3 && effective ≤ 7 else emptyCount = 0 && effective = 8)

/-- CPython `_check_bracketed_host`: a bracketed host must be a valid
IPvFuture literal (`v` + hex + `.` + nonempty) or a valid IPv6 address;
IPv4 addresses and everything else raise `ValueError`.  The IPv6 leg is
approximated by `validIPv6`; no theorem in this file exercises this
definition (all general theorems assume bracket-free input, and the
counterexamples use unbalanced brackets, rejected before this check). -/
def check_bracketed_host (h : PyStr) : Bool :=
  if h.head? = some 'v' then
    match h with
    | _ :: rest =>
        let hex := rest.takeWhile isHexDig
        let after := rest.drop hex.length
        hex.length > 0 && after.head? = some '.' && after.length > 1
    | [] => false
  else
    validIPv6 h && !validIPv4 h

/-- The bracket validation `urlsplit` applies to a parsed netloc:
`ValueError` (`none`) on unbalanced square brackets, bracketed-host
validation when both brackets occur, success otherwise. -/
def netlocCheck (scheme netloc : PyStr) : Option (PyStr × PyStr) :=
  if (netloc.contains '[' && !netloc.contains ']')
     || (netloc.contains ']' && !netloc.contains '[') then
    none
  else if netloc.contains '[' && netloc.contains ']' then
    if check_bracketed_host (bracketedHost netloc) then some (scheme, netloc) else none
  else
    some (scheme, netloc)

/-- The scheme/netloc fragment of CPython 3.11 `urlsplit` (hence of
`urlparse`; the application never reads the other components).  Returns
`none` where CPython raises `ValueError` on malformed bracketed hosts.
CPython additionally runs `_checknetloc`, which always passes for ASCII
netlocs and can raise only for exotic non-ASCII input whose NFKC
normalization introduces separator characters; that case is modelled as
passing, and every general theorem below restricts itself to ASCII
input so the approximation is never load-bearing. -/
def pyUrlparseSchemeNetloc (url : PyStr) : Option (PyStr × PyStr) :=
  let u := removeTabCrLf (url.dropWhile c0OrSpace)
  let sr := splitScheme u
  if sr.2.take 2 = "//".data then
    netlocCheck sr.1 ((sr.2.drop 2).takeWhile (fun c => !netlocStop c))
  else
    some (sr.1, [])

/-- The netloc `urlsplit` derives from the text `w` following a
`scheme://` prefix: remove tab/CR/LF, then take up to the first
`/`, `?` or `#`. -/
def netlocOf (w : PyStr) : PyStr :=
  (removeTabCrLf w).takeWhile (fun c => !netlocStop c)

/-! ## `clean_shopify_url` (src/app.py lines 58–68) -/

/-- Core of `clean_shopify_url` on character lists: strip whitespace,
prepend `https://` when neither recognized prefix is present, parse, and
rebuild `scheme + "://" + netloc`.  `none` models a propagating
`ValueError` from `urlparse`. -/
def cleanCore (url : PyStr) : Option PyStr :=
  let url1 := pyStrip url
  let url2 :=
    if pyStartsWith "http://".data url1 || pyStartsWith "https://".data url1 then url1
    else "https://".data ++ url1
  (pyUrlparseSchemeNetloc url2).map (fun p => p.1 ++ "://".data ++ p.2)

/-- `clean_shopify_url` from src/app.py: cleans the input URL by ensuring
it has a scheme and removing path/query params.  `none` models an
uncaught `ValueError` raised by `urlparse`. -/
def clean_shopify_url (url : String) : Option String :=
  (cleanCore url.data).map String.mk

/-! ## JSON values and the fragment of Python semantics the app uses -/

/-- A decoded JSON value, as produced by `response.json()`.  Numbers are
modelled as integers (no claim involves fractional values). -/
inductive Json where
  | null : Json
  | bool (b : Bool) : Json
  | num (n : Int) : Json
  | str (s : String) : Json
  | arr (elems : List Json) : Json
  | obj (fields : List (String × Json)) : Json

/-- A Python exception that the application does not catch. -/
inductive PyExc where
  | attributeError : PyExc
  | typeError : PyExc
  | keyError : PyExc
  | indexError : PyExc
  | valueError : PyExc
deriving DecidableEq

/-- First-match association lookup (JSON object keys are unique after
decoding, so this matches Python `dict` lookup). -/
def pyLookup (fields : List (String × Json)) (k : String) : Option Json :=
  match fields with
  | [] => none
  | (k1, v) :: rest => if k1 = k then some v else pyLookup rest k

/-- Python `d.get(k, default)`: dictionary lookup with a default; any
non-dict receiver raises `AttributeError`. -/
def pyGet (v : Json) (k : String) (default : Json) : Except PyExc Json :=
  match v with
  | .obj fields => .ok ((pyLookup fields k).getD default)
  | _ => .error .attributeError

/-- Python `d.get(k)` (default `None` ⇒ `Option`); non-dict receivers
raise `AttributeError`. -/
def pyGetOpt (v : Json) (k : String) : Except PyExc (Option Json) :=
  match v with
  | .obj fields => .ok (pyLookup fields k)
  | _ => .error .attributeError

/-- Python truthiness of a decoded JSON value. -/
def Json.truthy : Json → Bool
  | .null => false
  | .bool b => b
  | .num n => n != 0
  | .str s => s != ""
  | .arr l => !l.isEmpty
  | .obj fields => !fields.isEmpty

/-- Python `x[0]` on a decoded JSON value (`product_images[0]`). -/
def pyIndexZero (v : Json) : Except PyExc Json :=
  match v with
  | .arr (x :: _) => .ok x
  | .arr [] => .error .indexError
  | .str s =>
      match s.data with
      | c :: _ => .ok (.str (String.mk [c]))
      | [] => .error .indexError
  | .obj _ => .error .keyError
  | _ => .error .typeError

/-- Python `len(x)` on a decoded JSON value. -/
def pyLen (v : Json) : Except PyExc Nat :=
  match v with
  | .arr l => .ok l.length
  | .str s => .ok s.length
  | .obj fields => .ok fields.length
  | _ => .error .typeError

/-- Python `for x in v`: lists iterate over elements, strings over
one-character strings, dicts over their keys; other values raise
`TypeError`. -/
def pyIter (v : Json) : Except PyExc (List Json) :=
  match v with
  | .arr l => .ok l
  | .str s => .ok (s.data.map (fun c => .str (String.mk [c])))
  | .obj fields => .ok (fields.map (fun kv => .str kv.1))
  | _ => .error .typeError

mutual

/-- Python `repr` of a decoded JSON value, used for elements of containers
in f-string interpolation.  String quoting is approximated (escapes inside
the string are not reproduced); no theorem below interpolates a container. -/
def Json.pyRepr : Json → String
  | .null => "None"
  | .bool b => if b then "True" else "False"
  | .num n => toString n
  | .str s => "'" ++ s ++ "'"
  | .arr l => "[" ++ String.intercalate ", " (Json.pyReprList l) ++ "]"
  | .obj fields => "\x7b" ++ String.intercalate ", " (Json.pyReprFields fields) ++ "\x7d"

/-- `repr` of each element of a list. -/
def Json.pyReprList : List Json → List String
  | [] => []
  | v :: rest => Json.pyRepr v :: Json.pyReprList rest

/-- `repr` of each `key: value` pair of a dict. -/
def Json.pyReprFields : List (String × Json) → List String
  | [] => []
  | (k, v) :: rest => ("'" ++ k ++ "': " ++ Json.pyRepr v) :: Json.pyReprFields rest

end

/-- Python `str(v)` / f-string interpolation of a decoded JSON value. -/
def Json.pyToString : Json → String
  | .str s => s
  | v => Json.pyRepr v

/-! ## `fetch_shopify_products` (src/app.py lines 9–34) -/

/-- The outcome of the single `requests.get` call, abstracting the
network: either a `requests.exceptions.RequestException` raised by the
GET itself (connection error, timeout, invalid URL — `msg` is the
exception's rendered text), or a response with a status code and a body
that either decodes as JSON or does not. -/
inductive HttpOutcome where
  | requestFailure (msg : String) : HttpOutcome
  | response (status : Nat) (body : Option Json) : HttpOutcome

/-- A user-visible message emitted through the UI framework.  The
constructors record which message the app displays together with its
dynamic data; the surrounding literal text lives in src/app.py. -/
inductive UiMsg where
  | errorFetchNet (msg : String) : UiMsg
  | errorFetchHttp (status : Nat) : UiMsg
  | errorInvalidJson : UiMsg
  | successFound (n : Nat) : UiMsg
  | warnNoProducts : UiMsg
deriving DecidableEq

/-- The endpoint-URL construction of `fetch_shopify_products`
(src/app.py lines 15–19): `rstrip('/')`, then append
`/products.json?limit=1000` unless the string already ends with
`products.json?limit=1000`. -/
def build_api_url (base_url : String) : String :=
  let clean_url := pyRStrip (fun c => c == '/') base_url.data
  if !pyEndsWith "products.json?limit=1000".data clean_url then
    String.mk (clean_url ++ "/products.json?limit=1000".data)
  else
    String.mk clean_url

/-- `fetch_shopify_products` from src/app.py.  `env` maps the requested
URL to the network outcome.  `raise_for_status` raises `HTTPError` (a
`RequestException`) exactly for status codes in `[400, 600)`; that and
any exception from the GET are caught and reported via `st.error`, as is
the `ValueError` from an undecodable body.  `data.get('products', [])`
on a decoded body that is not a JSON object raises an `AttributeError`
that no handler catches, modelled as `Except.error`. -/
def fetch_shopify_products (base_url : String) (env : String → HttpOutcome) :
    Except PyExc (Json × List UiMsg) :=
  let api_url := build_api_url base_url
  match env api_url with
  | .requestFailure msg => .ok (.arr [], [.errorFetchNet msg])
  | .response status body =>
      if 400 ≤ status ∧ status < 600 then
        .ok (.arr [], [.errorFetchHttp status])
      else
        match body with
        | none => .ok (.arr [], [.errorInvalidJson])
        | some data =>
            match pyGet data "products" (.arr []) with
            | .ok v => .ok (v, [])
            | .error e => .error e

/-! ## `extract_images` (src/app.py lines 36–56) -/

/-- The per-product body of the `extract_images` loop: compute title,
handle and product URL via `dict.get`, then keep the first image's `src`
when it is truthy.  Returns `some entry` when the product contributes an
entry, `none` when it is skipped. -/
def extractImagesStep (base_url : String) (product : Json) :
    Except PyExc (Option (Json × Json × String)) := do
  let title ← pyGet product "title" (.str "Unknown Product")
  let handle ← pyGet product "handle" (.str "")
  let product_url := base_url ++ "/products/" ++ handle.pyToString
  let product_images ← pyGet product "images" (.arr [])
  if product_images.truthy then
    let first_img ← pyIndexZero product_images
    let src ← pyGetOpt first_img "src"
    match src with
    | some v => if v.truthy then pure (some (v, title, product_url)) else pure none
    | none => pure none
  else
    pure none

/-- The `for product in products` loop of `extract_images`, accumulating
entries in iteration order. -/
def extractImagesLoop (base_url : String) : List Json →
    Except PyExc (List (Json × Json × String))
  | [] => .ok []
  | p :: rest => do
      let head ← extractImagesStep base_url p
      let tail ← extractImagesLoop base_url rest
      match head with
      | some e => pure (e :: tail)
      | none => pure tail

/-- `extract_images` from src/app.py: extracts `(src, title, product_url)`
triples, one per product at most, taking only the first image. -/
def extract_images (products : Json) (base_url : String) :
    Except PyExc (List (Json × Json × String)) := do
  let l ← pyIter products
  extractImagesLoop base_url l

/-- Well-shapedness of one product record, exactly strong enough for the
`extract_images` loop body to run without raising: the product is a JSON
object, and its `images` value (defaulting to `[]`) is either a list
whose first element is an object, or a falsy non-list value (which the
`if product_images:` test skips before any subscripting). -/
def productShapeOk (p : Json) : Bool :=
  match p with
  | .obj fields =>
      match (pyLookup fields "images").getD (.arr []) with
      | .arr [] => true
      | .arr (first :: _) => match first with | .obj _ => true | _ => false
      | v => !v.truthy
  | _ => false

/-- The pure per-product result of the `extract_images` loop body on a
well-shaped product: `some (src, title, product_url)` when the product
contributes an entry, `none` when it is skipped. -/
def extractEntry (base_url : String) (p : Json) : Option (Json × Json × String) :=
  match p with
  | .obj fields =>
      let title := (pyLookup fields "title").getD (.str "Unknown Product")
      let handle := (pyLookup fields "handle").getD (.str "")
      let product_url := base_url ++ "/products/" ++ handle.pyToString
      match (pyLookup fields "images").getD (.arr []) with
      | .arr (first :: _) =>
          match first with
          | .obj ifields =>
              match pyLookup ifields "src" with
              | some v => if v.truthy then some (v, title, product_url) else none
              | none => none
          | _ => none
      | _ => none
  | _ => none

/-! ## The grid loop and cell markup (src/app.py lines 93–109) -/

/-- The batching performed by
`for i in range(0, len(image_data), cols_count): batch = image_data[i:i+cols_count]`.
Python `range` raises `ValueError` for step 0; the slider bounds the
column count to `[2, 8]`, so the `k = 0` case is unreachable and is given
the junk value `[]`. -/
def gridBatchesAux {α : Type} (k : Nat) : Nat → List α → List (List α)
  | _, [] => []
  | 0, _ :: _ => []
  | fuel + 1, x :: xs =>
      if k = 0 then []
      else (x :: xs).take k :: gridBatchesAux k fuel ((x :: xs).drop k)

/-- `gridBatches k l` is the list of slices `l[i:i+k]` for
`i = 0, k, 2k, …` — the batching of the grid loop.  The recursion is
driven by a fuel argument (`l.length` suffices, since each step drops
`k ≥ 1` elements) so that the definition reduces computationally. -/
def gridBatches {α : Type} (k : Nat) (l : List α) : List (List α) :=
  gridBatchesAux k l.length l

/-- The title cell markup (src/app.py line 103): the f-string interpolates
the title verbatim into the `title` attribute and the visible text. -/
def titleCellHtml (title : String) : String :=
  "<div style=\"text-align:center; margin:0; padding:0; font-size:0.9rem; overflow:hidden; text-overflow:ellipsis; white-space:nowrap;\" title=\""
    ++ title ++ "\">" ++ title ++ "</div>"

/-- The linked image markup (src/app.py line 107): the f-string
interpolates the product URL and image URL verbatim. -/
def linkCellHtml (product_url img_url : String) : String :=
  "<a href=\"" ++ product_url ++ "\" target=\"_blank\"><img src=\"" ++ img_url
    ++ "\" style=\"width:100%; border-radius:6px;\"></a>"

/-- One rendered grid cell: the two markdown fragments emitted for an
image entry (f-string interpolation uses `str()` on the tuple fields). -/
def renderCell (e : Json × Json × String) : String × String :=
  (titleCellHtml e.2.1.pyToString, linkCellHtml e.2.2 e.1.pyToString)

/-- The full grid: one row per batch, one cell per entry. -/
def renderRows (cols_count : Nat) (image_data : List (Json × Json × String)) :
    List (List (String × String)) :=
  (gridBatches cols_count image_data).map (fun batch => batch.map renderCell)

/-! ## The main UI block (src/app.py lines 76–112) -/

/-- Everything the app displays for one interaction: the `st.error` /
`st.success` / `st.warning` messages in emission order, and the rendered
grid rows. -/
structure AppOut where
  msgs : List UiMsg
  rows : List (List (String × String))
deriving DecidableEq

/-- The `if url_input:` block of src/app.py (lines 76–112): clean the
URL, fetch, and either render the grid with a success message or show
the no-products warning.  `Except.error` models an uncaught Python
exception reaching Streamlit; `cols_count` is the slider value,
constrained by the UI to `[2, 8]`. -/
def runApp (url_input : String) (env : String → HttpOutcome) (cols_count : Nat) :
    Except PyExc AppOut :=
  if url_input = "" then .ok ⟨[], []⟩
  else
    match clean_shopify_url url_input with
    | none => .error .valueError
    | some cleaned_url => do
        let pr ← fetch_shopify_products cleaned_url env
        let products := pr.1
        let fetchMsgs := pr.2
        if products.truthy then do
          let image_data ← extract_images products cleaned_url
          let n ← pyLen products
          pure ⟨fetchMsgs ++ [.successFound n], renderRows cols_count image_data⟩
        else
          pure ⟨fetchMsgs ++ [.warnNoProducts], []⟩

/-! ## Helper lemmas: Python string primitives -/

theorem mem_of_mem_pyRStrip {p : Char → Bool} {s : PyStr} {c : Char}
    (h : c ∈ pyRStrip p s) : c ∈ s := by
  unfold pyRStrip at h
  rw [List.mem_reverse] at h
  exact List.mem_reverse.mp ((List.dropWhile_suffix p).mem h)

theorem mem_of_mem_pyStrip {s : PyStr} {c : Char} (h : c ∈ pyStrip s) : c ∈ s :=
  (List.dropWhile_suffix pyIsSpace).mem (mem_of_mem_pyRStrip h)

theorem mem_of_mem_netlocOf {w : PyStr} {c : Char} (h : c ∈ netlocOf w) : c ∈ w :=
  (List.mem_filter.mp ((List.takeWhile_prefix _).mem h)).1

theorem netlocOf_no_stop {w : PyStr} {c : Char} (h : c ∈ netlocOf w) :
    netlocStop c = false := by
  have := List.mem_takeWhile_imp h
  simpa using this

theorem netlocOf_no_unsafe {w : PyStr} {c : Char} (h : c ∈ netlocOf w) :
    urlUnsafeChar c = false := by
  have := (List.mem_filter.mp ((List.takeWhile_prefix _).mem h)).2
  simpa using this

theorem dropWhile_eq_self_of_head {p : Char → Bool} {l : PyStr}
    (h : ∀ x, l.head? = some x → p x = false) : l.dropWhile p = l := by
  cases l with
  | nil => rfl
  | cons x xs => rw [List.dropWhile_cons, h x rfl]; simp

theorem pyRStrip_eq_self {p : Char → Bool} {l : PyStr}
    (h : ∀ c, l.getLast? = some c → p c = false) : pyRStrip p l = l := by
  unfold pyRStrip
  cases hrev : l.reverse with
  | nil =>
      have : l = [] := by simpa using congrArg List.reverse hrev
      simp [this]
  | cons c t =>
      have hl : l.getLast? = some c := by
        rw [← List.head?_reverse, hrev]; rfl
      rw [List.dropWhile_cons, h c hl]
      simp [← hrev]

theorem findCharIdx_append_of_not_mem {c : Char} {a b : PyStr} (h : c ∉ a) :
    findCharIdx c (a ++ b) = (findCharIdx c b).map (fun i => i + a.length) := by
  induction a with
  | nil =>
      simp only [List.nil_append, List.length_nil]
      cases hfb : findCharIdx c b <;> simp [hfb]
  | cons x xs ih =>
      have hx : ¬ x = c := fun e => h (by rw [e]; exact List.mem_cons_self c xs)
      rw [List.cons_append]
      simp only [findCharIdx, hx, if_false]
      rw [ih (fun hm => h (List.mem_cons_of_mem _ hm))]
      cases findCharIdx c b <;> simp [Nat.add_assoc]

theorem splitScheme_pre {pre w : PyStr} (hc : ':' ∉ pre) (hne : pre ≠ [])
    (hhead : pre.head?.any Char.isAlpha = true)
    (hall : pre.all isSchemeChar = true)
    (hlow : pre.map Char.toLower = pre) :
    splitScheme (pre ++ ':' :: w) = (pre, w) := by
  have hfind : findCharIdx ':' (pre ++ ':' :: w) = some pre.length := by
    rw [findCharIdx_append_of_not_mem hc]
    simp [findCharIdx]
  have htake : (pre ++ ':' :: w).take pre.length = pre := List.take_left pre (':' :: w)
  have hdrop : (pre ++ ':' :: w).drop (pre.length + 1) = w := by
    have he : pre ++ ':' :: w = (pre ++ [':']) ++ w := by simp
    have hlen : (pre ++ [':']).length = pre.length + 1 := by simp
    rw [he, ← hlen, List.drop_left]
  obtain ⟨x, xs, rfl⟩ := List.exists_cons_of_ne_nil hne
  have hx : x.isAlpha = true := by simpa using hhead
  have hall2 := List.all_eq_true.mp hall
  unfold splitScheme
  rw [hfind]
  simp [htake, hdrop, hall, hx, hlow, fun y hy => hall2 y hy]

/-! ## Helper lemmas: the urlparse model on `http(s)://`-prefixed input -/

theorem pyUrlparse_pre {pre w : PyStr}
    (hpre : pre = "http".data ∨ pre = "https".data) :
    pyUrlparseSchemeNetloc (pre ++ ':' :: '/' :: '/' :: w) = netlocCheck pre (netlocOf w) := by
  have hne : pre ≠ [] := by rcases hpre with rfl | rfl <;> decide
  have hc : ':' ∉ pre := by rcases hpre with rfl | rfl <;> decide
  have hhead : pre.head?.any Char.isAlpha = true := by rcases hpre with rfl | rfl <;> decide
  have hall : pre.all isSchemeChar = true := by rcases hpre with rfl | rfl <;> decide
  have hlow : pre.map Char.toLower = pre := by rcases hpre with rfl | rfl <;> decide
  have hfilter : removeTabCrLf pre = pre := by rcases hpre with rfl | rfl <;> decide
  have hd : (pre ++ ':' :: '/' :: '/' :: w).dropWhile c0OrSpace
      = pre ++ ':' :: '/' :: '/' :: w := by
    refine dropWhile_eq_self_of_head (fun x hx => ?_)
    rw [List.head?_append_of_ne_nil pre hne] at hx
    rcases hpre with rfl | rfl <;> · simp at hx; rw [← hx]; decide
  have hrm : removeTabCrLf (pre ++ ':' :: '/' :: '/' :: w)
      = pre ++ ':' :: '/' :: '/' :: removeTabCrLf w := by
    have he : pre ++ ':' :: '/' :: '/' :: w = pre ++ ([':', '/', '/'] ++ w) := rfl
    rw [he]
    unfold removeTabCrLf
    rw [List.filter_append, List.filter_append]
    rw [show List.filter (fun c => !urlUnsafeChar c) pre = pre from hfilter]
    rfl
  simp only [pyUrlparseSchemeNetloc]
  rw [hd, hrm, splitScheme_pre hc hne hhead hall hlow]
  rfl

theorem netlocCheck_some {sch nl : PyStr} {p : PyStr × PyStr}
    (h : netlocCheck sch nl = some p) :
    p = (sch, nl) ∧ netlocCheck sch nl = some (sch, nl) := by
  unfold netlocCheck at h ⊢
  split_ifs at h ⊢ <;> simp_all

theorem netlocCheck_of_no_brackets {sch nl : PyStr} (h1 : '[' ∉ nl) (h2 : ']' ∉ nl) :
    netlocCheck sch nl = some (sch, nl) := by
  have c1 : nl.contains '[' = false := by
    rw [Bool.eq_false_iff]; intro hc; exact h1 (by simpa using hc)
  have c2 : nl.contains ']' = false := by
    rw [Bool.eq_false_iff]; intro hc; exact h2 (by simpa using hc)
  unfold netlocCheck
  simp [c1, c2, h1, h2]

/-! ## Helper lemmas: `cleanCore` case analysis -/

theorem cleanCore_of_http {s w : PyStr} (h : pyStrip s = "http://".data ++ w) :
    cleanCore s = (netlocCheck "http".data (netlocOf w)).map
      (fun p => p.1 ++ "://".data ++ p.2) := by
  simp only [cleanCore]
  rw [h]
  have hsw : pyStartsWith "http://".data ("http://".data ++ w) = true :=
    decide_eq_true ⟨w, rfl⟩
  rw [hsw]
  simp only [Bool.true_or, if_true]
  exact congrArg (Option.map _) (pyUrlparse_pre (Or.inl rfl))

theorem cleanCore_of_https {s w : PyStr} (h : pyStrip s = "https://".data ++ w) :
    cleanCore s = (netlocCheck "https".data (netlocOf w)).map
      (fun p => p.1 ++ "://".data ++ p.2) := by
  simp only [cleanCore]
  rw [h]
  have hsw : pyStartsWith "https://".data ("https://".data ++ w) = true :=
    decide_eq_true ⟨w, rfl⟩
  rw [hsw]
  simp only [Bool.or_true, if_true]
  exact congrArg (Option.map _) (pyUrlparse_pre (Or.inr rfl))

theorem cleanCore_of_plain {s : PyStr}
    (h1 : pyStartsWith "http://".data (pyStrip s) = false)
    (h2 : pyStartsWith "https://".data (pyStrip s) = false) :
    cleanCore s = (netlocCheck "https".data (netlocOf (pyStrip s))).map
      (fun p => p.1 ++ "://".data ++ p.2) := by
  simp only [cleanCore, h1, h2, Bool.or_self]
  rw [if_neg (by simp)]
  exact congrArg (Option.map _) (pyUrlparse_pre (Or.inr rfl))

theorem cleanCore_shape {s r : PyStr} (h : cleanCore s = some r) :
    ∃ pre nl, (pre = "http".data ∨ pre = "https".data) ∧
      r = pre ++ "://".data ++ nl ∧
      netlocCheck pre nl = some (pre, nl) ∧
      (∀ c ∈ nl, netlocStop c = false) ∧
      (∀ c ∈ nl, urlUnsafeChar c = false) := by
  by_cases hb1 : pyStartsWith "http://".data (pyStrip s) = true
  · obtain ⟨w, hw⟩ := of_decide_eq_true hb1
    rw [cleanCore_of_http hw.symm] at h
    obtain ⟨p, hp, heq⟩ := Option.map_eq_some'.mp h
    obtain ⟨hpEq, hNC⟩ := netlocCheck_some hp
    subst hpEq
    exact ⟨"http".data, netlocOf w, Or.inl rfl, heq.symm, hNC,
      fun c hc => netlocOf_no_stop hc, fun c hc => netlocOf_no_unsafe hc⟩
  · by_cases hb2 : pyStartsWith "https://".data (pyStrip s) = true
    · obtain ⟨w, hw⟩ := of_decide_eq_true hb2
      rw [cleanCore_of_https hw.symm] at h
      obtain ⟨p, hp, heq⟩ := Option.map_eq_some'.mp h
      obtain ⟨hpEq, hNC⟩ := netlocCheck_some hp
      subst hpEq
      exact ⟨"https".data, netlocOf w, Or.inr rfl, heq.symm, hNC,
        fun c hc => netlocOf_no_stop hc, fun c hc => netlocOf_no_unsafe hc⟩
    · rw [cleanCore_of_plain (Bool.eq_false_iff.mpr hb1) (Bool.eq_false_iff.mpr hb2)] at h
      obtain ⟨p, hp, heq⟩ := Option.map_eq_some'.mp h
      obtain ⟨hpEq, hNC⟩ := netlocCheck_some hp
      subst hpEq
      exact ⟨"https".data, netlocOf (pyStrip s), Or.inr rfl, heq.symm, hNC,
        fun c hc => netlocOf_no_stop hc, fun c hc => netlocOf_no_unsafe hc⟩

theorem clean_eq_some_iff {s t : String} :
    clean_shopify_url s = some t ↔ cleanCore s.data = some t.data := by
  unfold clean_shopify_url
  constructor
  · intro h
    obtain ⟨r, hr, he⟩ := Option.map_eq_some'.mp h
    rw [hr, ← he]
  · intro h
    rw [h]
    rfl

/-- The result of a successful clean re-parses to itself: the full
computational content behind idempotence on trim-invariant outputs. -/
theorem cleanCore_replay {s r : PyStr} (h : cleanCore s = some r)
    (htrim : pyStrip r = r) : cleanCore r = some r := by
  obtain ⟨pre, nl, hpre, hr, hNC, hstop, hsafe⟩ := cleanCore_shape h
  have h1 : removeTabCrLf nl = nl :=
    List.filter_eq_self.mpr (fun c hc => by simp [hsafe c hc])
  have h2 : nl.takeWhile (fun c => !netlocStop c) = nl :=
    List.takeWhile_eq_self_iff.mpr (fun c hc => by simp [hstop c hc])
  have hNLof : netlocOf nl = nl := by unfold netlocOf; rw [h1, h2]
  rcases hpre with rfl | rfl
  · have hw : pyStrip r = "http://".data ++ nl := by rw [htrim, hr]; rfl
    rw [cleanCore_of_http hw, hNLof, hNC]
    rw [hr]
    rfl
  · have hw : pyStrip r = "https://".data ++ nl := by rw [htrim, hr]; rfl
    rw [cleanCore_of_https hw, hNLof, hNC]
    rw [hr]
    rfl

/-! ## Claims about the URL normalizer (C2, C7) and endpoint URL (C5) -/

/-- C2, counterexample: the claim "for every input string the URL
normalizer trims, prepends the scheme and returns only scheme and host"
fails at input `"["`: `urlparse` raises `ValueError` (unbalanced IPv6
bracket), so the normalizer raises instead of returning a string. -/
theorem clean_shopify_url_raises_on_bracket : clean_shopify_url "[" = none := by decide

/-- C2 (amended): for every ASCII input string containing no square
brackets, the URL normalizer trims surrounding whitespace, prepends
`https://` when the input does not start with a recognized `http://` or
`https://` prefix, and returns only the scheme and host (a host free of
`/`, `?`, `#`); in particular `"example.com"` yields
`"https://example.com"` and `"http://example.com/some/path?x=1"` yields
`"http://example.com"`.  (Inputs with square brackets can raise
`ValueError`; the ASCII restriction keeps the model inside the faithfully
embedded fragment of CPython `_checknetloc`.) -/
theorem clean_shopify_url_normalizes (s : String)
    (hascii : s.data.all (fun c => c.toNat ≤ 127) = true)
    (hlb : '[' ∉ s.data) (hrb : ']' ∉ s.data) :
    (∃ host : PyStr, (∀ c ∈ host, netlocStop c = false) ∧
        clean_shopify_url s = some (String.mk
          ((if pyStartsWith "http://".data (pyStrip s.data) = true
            then "http://".data else "https://".data) ++ host))) ∧
    clean_shopify_url "example.com" = some "https://example.com" ∧
    clean_shopify_url "http://example.com/some/path?x=1" = some "http://example.com" ∧
    clean_shopify_url "  example.com " = some "https://example.com" := by
  refine ⟨?_, by decide, by decide, by decide⟩
  by_cases hb1 : pyStartsWith "http://".data (pyStrip s.data) = true
  · obtain ⟨w, hw⟩ := of_decide_eq_true hb1
    refine ⟨netlocOf w, fun c hc => netlocOf_no_stop hc, ?_⟩
    have hmem : ∀ c ∈ netlocOf w, c ∈ s.data := fun c hc =>
      mem_of_mem_pyStrip (hw ▸ List.mem_append_right _ (mem_of_mem_netlocOf hc))
    have hnc := @netlocCheck_of_no_brackets "http".data (netlocOf w)
        (fun hm => hlb (hmem _ hm)) (fun hm => hrb (hmem _ hm))
    unfold clean_shopify_url
    rw [cleanCore_of_http hw.symm, hnc, if_pos hb1]
    rfl
  · by_cases hb2 : pyStartsWith "https://".data (pyStrip s.data) = true
    · obtain ⟨w, hw⟩ := of_decide_eq_true hb2
      refine ⟨netlocOf w, fun c hc => netlocOf_no_stop hc, ?_⟩
      have hmem : ∀ c ∈ netlocOf w, c ∈ s.data := fun c hc =>
        mem_of_mem_pyStrip (hw ▸ List.mem_append_right _ (mem_of_mem_netlocOf hc))
      have hnc := @netlocCheck_of_no_brackets "https".data (netlocOf w)
          (fun hm => hlb (hmem _ hm)) (fun hm => hrb (hmem _ hm))
      unfold clean_shopify_url
      rw [cleanCore_of_https hw.symm, hnc, if_neg hb1]
      rfl
    · refine ⟨netlocOf (pyStrip s.data), fun c hc => netlocOf_no_stop hc, ?_⟩
      have hmem : ∀ c ∈ netlocOf (pyStrip s.data), c ∈ s.data := fun c hc =>
        mem_of_mem_pyStrip (mem_of_mem_netlocOf hc)
      have hnc := @netlocCheck_of_no_brackets "https".data
          (netlocOf (pyStrip s.data))
          (fun hm => hlb (hmem _ hm)) (fun hm => hrb (hmem _ hm))
      unfold clean_shopify_url
      rw [cleanCore_of_plain (Bool.eq_false_iff.mpr hb1) (Bool.eq_false_iff.mpr hb2),
        hnc, if_neg hb1]
      rfl

/-- Witness for the amended C2 theorem at input `"example.com"`. -/
theorem clean_shopify_url_normalizes_witness :
    ∃ host : PyStr, (∀ c ∈ host, netlocStop c = false) ∧
      clean_shopify_url "example.com" = some (String.mk
        ((if pyStartsWith "http://".data (pyStrip "example.com".data) = true
          then "http://".data else "https://".data) ++ host)) :=
  (clean_shopify_url_normalizes "example.com" (by decide) (by decide) (by decide)).1

/-- C7, counterexample: the normalizer is not idempotent.  For input
`"https://a /"` the parsed netloc keeps its trailing space, so the output
is `"https://a "`; re-applying the normalizer strips that space and
returns `"https://a"`. -/
theorem clean_shopify_url_not_idempotent :
    clean_shopify_url "https://a /" = some "https://a " ∧
    clean_shopify_url "https://a " = some "https://a" ∧
    ("https://a " : String) ≠ "https://a" :=
  ⟨by decide, by decide, by decide⟩

/-- C7 (amended): the normalizer is idempotent on every input whose
output is unchanged by whitespace trimming (equivalently, whose derived
host has no trailing whitespace): if `clean_shopify_url s = some t` and
`t` is strip-invariant then `clean_shopify_url t = some t`. -/
theorem clean_shopify_url_idempotent_on_trimmed (s t : String)
    (h : clean_shopify_url s = some t)
    (htrim : pyStrip t.data = t.data) :
    clean_shopify_url t = some t := by
  rw [clean_eq_some_iff] at h ⊢
  exact cleanCore_replay h htrim

/-- Witness for the amended C7 theorem: `"  a  "` cleans to
`"https://a"`, which cleans to itself. -/
theorem clean_shopify_url_idempotent_on_trimmed_witness :
    clean_shopify_url "https://a" = some "https://a" :=
  clean_shopify_url_idempotent_on_trimmed "  a  " "https://a" (by decide) (by decide)

/-- C5, counterexample: for the normalizer output `"https://"` (produced
by input `""`) the endpoint is **not** `origin + "/products.json?limit=1000"`:
the `rstrip('/')` removes the `//` of the scheme separator first. -/
theorem api_url_empty_host :
    clean_shopify_url "" = some "https://" ∧
    build_api_url "https://" = "https:/products.json?limit=1000" ∧
    build_api_url "https://" ≠ "https://" ++ "/products.json?limit=1000" :=
  ⟨by decide, by decide, by decide⟩

/-- C5 (amended): for every string the URL normalizer produces, the
`endswith('products.json?limit=1000')` branch of the fetcher can never
trigger (the else-arm is dead), and the endpoint is
`rstrip(origin, '/') + "/products.json?limit=1000"`, which equals
`origin + "/products.json?limit=1000"` whenever the origin's host is
nonempty (i.e. the origin is not bare `"http://"` or `"https://"`). -/
theorem api_url_construction (s origin : String)
    (h : clean_shopify_url s = some origin) :
    pyEndsWith "products.json?limit=1000".data
        (pyRStrip (fun c => c == '/') origin.data) = false ∧
    build_api_url origin = String.mk
        (pyRStrip (fun c => c == '/') origin.data ++ "/products.json?limit=1000".data) ∧
    (origin ≠ "http://" → origin ≠ "https://" →
      build_api_url origin = origin ++ "/products.json?limit=1000") := by
  rw [clean_eq_some_iff] at h
  obtain ⟨pre, nl, hpre, hr, hNC, hstop, hsafe⟩ := cleanCore_shape h
  have hq : '?' ∉ origin.data := by
    rw [hr]
    intro hmem
    rcases List.mem_append.mp hmem with hmem1 | hmem2
    · rcases List.mem_append.mp hmem1 with hp | hp
      · rcases hpre with rfl | rfl <;> exact absurd hp (by decide)
      · exact absurd hp (by decide)
    · exact absurd (hstop _ hmem2) (by decide)
  have h1 : pyEndsWith "products.json?limit=1000".data
      (pyRStrip (fun c => c == '/') origin.data) = false := by
    rw [Bool.eq_false_iff]
    intro hend
    have hsuf := of_decide_eq_true hend
    have hqm : '?' ∈ pyRStrip (fun c => c == '/') origin.data :=
      hsuf.mem (by decide)
    exact hq (mem_of_mem_pyRStrip hqm)
  refine ⟨h1, ?_, ?_⟩
  · unfold build_api_url
    simp only [h1, Bool.not_false, if_true]
  · intro hne1 hne2
    have hnl : nl ≠ [] := by
      intro hnil
      rcases hpre with rfl | rfl
      · exact hne1 (String.ext (by rw [hr, hnil]; rfl))
      · exact hne2 (String.ext (by rw [hr, hnil]; rfl))
    obtain ⟨c, hc⟩ : ∃ c, nl.getLast? = some c :=
      ⟨nl.getLast hnl, List.getLast?_eq_getLast nl hnl⟩
    have hcm : c ∈ nl := by
      obtain ⟨ys, hys⟩ := List.getLast?_eq_some_iff.mp hc
      rw [hys]
      exact List.mem_append_right _ (List.mem_singleton.mpr rfl)
    have hlast : origin.data.getLast? = some c := by
      rw [hr, List.getLast?_append, hc]
      rfl
    have hslash : (c == '/') = false := by
      have hns := hstop c hcm
      unfold netlocStop at hns
      exact ((Bool.or_eq_false_iff.mp
        ((Bool.or_eq_false_iff.mp hns).1)).1)
    have hrstrip : pyRStrip (fun c => c == '/') origin.data = origin.data :=
      pyRStrip_eq_self (fun d hd => by
        rw [hlast] at hd
        injection hd with h''
        rw [← h'']
        exact hslash)
    have h1' : pyEndsWith "products.json?limit=1000".data origin.data = false := by
      rw [← hrstrip]
      exact h1
    unfold build_api_url
    simp only [hrstrip, h1', Bool.not_false, if_true]
    cases origin
    rfl

/-- Witness for the amended C5 theorem at input `"x"`. -/
theorem api_url_construction_witness :
    build_api_url "https://x" = "https://x" ++ "/products.json?limit=1000" :=
  (api_url_construction "x" "https://x" (by decide)).2.2 (by decide) (by decide)

/-! ## Claims about the grid renderer (C4) -/

theorem gridBatchesAux_nil {α : Type} (k fuel : Nat) :
    gridBatchesAux k fuel ([] : List α) = [] := by
  cases fuel <;> rfl

theorem gridBatchesAux_fuel {α : Type} (k : Nat) :
    ∀ f₁ f₂ (l : List α), l.length ≤ f₁ → l.length ≤ f₂ →
      gridBatchesAux k f₁ l = gridBatchesAux k f₂ l := by
  intro f₁
  induction f₁ with
  | zero =>
      intro f₂ l h1 h2
      have hl : l = [] := List.eq_nil_of_length_eq_zero (Nat.le_zero.mp h1)
      subst hl
      rw [gridBatchesAux_nil, gridBatchesAux_nil]
  | succ g ih =>
      intro f₂ l h1 h2
      cases l with
      | nil => rw [gridBatchesAux_nil, gridBatchesAux_nil]
      | cons x xs =>
          cases f₂ with
          | zero => simp at h2
          | succ g₂ =>
              simp only [gridBatchesAux]
              by_cases hk : k = 0
              · simp [hk]
              · simp only [hk, if_false]
                congr 1
                simp only [List.length_cons] at h1 h2
                apply ih
                · simp only [List.length_drop, List.length_cons]
                  omega
                · simp only [List.length_drop, List.length_cons]
                  omega

theorem gridBatches_cons {α : Type} (k : Nat) (hk : k ≠ 0) (x : α) (xs : List α) :
    gridBatches k (x :: xs) = (x :: xs).take k :: gridBatches k ((x :: xs).drop k) := by
  unfold gridBatches
  show gridBatchesAux k (xs.length + 1) (x :: xs) = _
  simp only [gridBatchesAux, hk, if_false]
  congr 1
  apply gridBatchesAux_fuel
  · simp only [List.length_drop, List.length_cons]
    omega
  · exact le_rfl

theorem gridBatches_flatten {α : Type} (k : Nat) (hk : k ≠ 0) (l : List α) :
    (gridBatches k l).flatten = l := by
  have H : ∀ n (l : List α), l.length ≤ n → (gridBatches k l).flatten = l := by
    intro n
    induction n with
    | zero =>
        intro l hl
        have : l = [] := List.eq_nil_of_length_eq_zero (Nat.le_zero.mp hl)
        subst this
        rfl
    | succ n ih =>
        intro l hl
        cases l with
        | nil => rfl
        | cons x xs =>
            rw [gridBatches_cons k hk]
            simp only [List.flatten_cons]
            simp only [List.length_cons] at hl
            rw [ih ((x :: xs).drop k)
              (by simp only [List.length_drop, List.length_cons]; omega)]
            exact List.take_append_drop k (x :: xs)
  exact H l.length l le_rfl

theorem gridBatches_batch_size {α : Type} (k : Nat) (hk : k ≠ 0) (l : List α) :
    ∀ b ∈ gridBatches k l, b ≠ [] ∧ b.length ≤ k := by
  have H : ∀ n (l : List α), l.length ≤ n →
      ∀ b ∈ gridBatches k l, b ≠ [] ∧ b.length ≤ k := by
    intro n
    induction n with
    | zero =>
        intro l hl b hb
        have : l = [] := List.eq_nil_of_length_eq_zero (Nat.le_zero.mp hl)
        subst this
        simp [gridBatches, gridBatchesAux_nil] at hb
    | succ n ih =>
        intro l hl b hb
        cases l with
        | nil => simp [gridBatches, gridBatchesAux_nil] at hb
        | cons x xs =>
            rw [gridBatches_cons k hk] at hb
            simp only [List.length_cons] at hl
            rcases List.mem_cons.mp hb with rfl | hb2
            · constructor
              · cases k with
                | zero => exact absurd rfl hk
                | succ k0 => simp [List.take]
              · rw [List.length_take]
                exact min_le_left _ _
            · exact ih ((x :: xs).drop k)
                (by simp only [List.length_drop, List.length_cons]; omega) b hb2
  exact H l.length l le_rfl

theorem gridBatches_full_except_last {α : Type} (k : Nat) (hk : k ≠ 0) (l : List α) :
    ∀ b ∈ (gridBatches k l).dropLast, b.length = k := by
  have H : ∀ n (l : List α), l.length ≤ n →
      ∀ b ∈ (gridBatches k l).dropLast, b.length = k := by
    intro n
    induction n with
    | zero =>
        intro l hl b hb
        have : l = [] := List.eq_nil_of_length_eq_zero (Nat.le_zero.mp hl)
        subst this
        simp [gridBatches, gridBatchesAux_nil] at hb
    | succ n ih =>
        intro l hl b hb
        cases l with
        | nil => simp [gridBatches, gridBatchesAux_nil] at hb
        | cons x xs =>
            rw [gridBatches_cons k hk] at hb
            simp only [List.length_cons] at hl
            cases hdl : (x :: xs).drop k with
            | nil =>
                rw [hdl] at hb
                simp [gridBatches, gridBatchesAux_nil] at hb
            | cons y ys =>
                rw [hdl] at hb
                have hne : gridBatches k (y :: ys) ≠ [] := by
                  rw [gridBatches_cons k hk]
                  exact List.cons_ne_nil _ _
                rw [List.dropLast_cons_of_ne_nil hne] at hb
                rcases List.mem_cons.mp hb with rfl | hb2
                · have hklen : k < xs.length + 1 := by
                    by_contra hcon
                    have hnil : (x :: xs).drop k = [] := by
                      apply List.drop_eq_nil_of_le
                      simpa using Nat.le_of_not_lt hcon
                    rw [hnil] at hdl
                    exact List.cons_ne_nil y ys hdl.symm
                  rw [List.length_take]
                  simpa using Nat.min_eq_left (Nat.le_of_lt hklen)
                · have hdrop : (y :: ys).length ≤ n := by
                    rw [← hdl]
                    simp only [List.length_drop, List.length_cons]
                    omega
                  exact ih (y :: ys) hdrop b hb2
  exact H l.length l le_rfl

/-- C4: for every entry sequence and column count in `[2, 8]`, the grid
loop partitions the entries into consecutive batches of the column-count
size (concatenating the batches recovers the input, every batch is
nonempty with length at most the column count, and every batch except
possibly the last has length exactly the column count); 13 entries at
column count 5 give batches of sizes `[5, 5, 3]`, and 0 entries give 0
batches. -/
theorem grid_renderer_partitions {α : Type} (l : List α) (k : Nat)
    (hk2 : 2 ≤ k) (hk8 : k ≤ 8) :
    (gridBatches k l).flatten = l ∧
    (∀ b ∈ gridBatches k l, b ≠ [] ∧ b.length ≤ k) ∧
    (∀ b ∈ (gridBatches k l).dropLast, b.length = k) ∧
    (gridBatches 5 (List.range 13)).map List.length = [5, 5, 3] ∧
    gridBatches k ([] : List α) = [] := by
  have hk : k ≠ 0 := by omega
  exact ⟨gridBatches_flatten k hk l, gridBatches_batch_size k hk l,
    gridBatches_full_except_last k hk l, by decide, rfl⟩

/-- Witness for C4 at 13 entries and column count 5. -/
theorem grid_renderer_partitions_witness :
    (gridBatches 5 (List.range 13)).flatten = List.range 13 :=
  (grid_renderer_partitions (List.range 13) 5 (by decide) (by decide)).1

/-! ## Claims about the image extractor (C3, C10) -/

theorem extractImagesStep_shape (base : String) (p : Json)
    (h : productShapeOk p = true) :
    extractImagesStep base p = .ok (extractEntry base p) := by
  cases p with
  | obj fields =>
      cases himg : (pyLookup fields "images").getD (.arr []) with
      | arr imgs =>
          cases imgs with
          | nil =>
              simp [extractImagesStep, extractEntry, pyGet, himg, Json.truthy,
                Bind.bind, Except.bind, Pure.pure, Except.pure]
          | cons first rest =>
              cases first with
              | obj ifields =>
                  cases hsrc : pyLookup ifields "src" with
                  | none =>
                      simp [extractImagesStep, extractEntry, pyGet, pyGetOpt,
                        pyIndexZero, himg, hsrc, Json.truthy,
                        Bind.bind, Except.bind, Pure.pure, Except.pure]
                  | some v =>
                      have harr : (Json.arr (Json.obj ifields :: rest)).truthy = true := rfl
                      cases htr : v.truthy <;>
                        simp [extractImagesStep, extractEntry, pyGet, pyGetOpt,
                          pyIndexZero, himg, hsrc, htr, harr,
                          Bind.bind, Except.bind, Pure.pure, Except.pure]
              | null => simp [productShapeOk, himg] at h
              | bool b => simp [productShapeOk, himg] at h
              | num n => simp [productShapeOk, himg] at h
              | str st => simp [productShapeOk, himg] at h
              | arr l2 => simp [productShapeOk, himg] at h
      | null =>
          simp [extractImagesStep, extractEntry, pyGet, himg, Json.truthy,
            Bind.bind, Except.bind, Pure.pure, Except.pure]
      | bool b =>
          have hb : b = false := by simpa [productShapeOk, himg, Json.truthy] using h
          subst hb
          simp [extractImagesStep, extractEntry, pyGet, himg, Json.truthy,
            Bind.bind, Except.bind, Pure.pure, Except.pure]
      | num n =>
          have hn : n = 0 := by simpa [productShapeOk, himg, Json.truthy] using h
          subst hn
          simp [extractImagesStep, extractEntry, pyGet, himg, Json.truthy,
            Bind.bind, Except.bind, Pure.pure, Except.pure]
      | str st =>
          have hs : st = "" := by simpa [productShapeOk, himg, Json.truthy] using h
          subst hs
          simp [extractImagesStep, extractEntry, pyGet, himg, Json.truthy,
            Bind.bind, Except.bind, Pure.pure, Except.pure]
      | obj ofields =>
          have hof : ofields = [] := by
            simpa [productShapeOk, himg, Json.truthy] using h
          subst hof
          simp [extractImagesStep, extractEntry, pyGet, himg, Json.truthy,
            Bind.bind, Except.bind, Pure.pure, Except.pure]
  | null => simp [productShapeOk] at h
  | bool b => simp [productShapeOk] at h
  | num n => simp [productShapeOk] at h
  | str st => simp [productShapeOk] at h
  | arr l2 => simp [productShapeOk] at h

theorem extractImagesLoop_shape (base : String) :
    ∀ l : List Json, l.all productShapeOk = true →
      extractImagesLoop base l = .ok (l.filterMap (extractEntry base)) := by
  intro l
  induction l with
  | nil => intro h; rfl
  | cons p rest ih =>
      intro h
      have hpr : productShapeOk p = true ∧ rest.all productShapeOk = true := by
        simpa [List.all_cons] using h
      simp only [extractImagesLoop, extractImagesStep_shape base p hpr.1, ih hpr.2]
      cases hE : extractEntry base p <;>
        simp [hE, List.filterMap_cons, Bind.bind, Except.bind, Pure.pure, Except.pure]

theorem extract_images_shape (base : String) (products : List Json)
    (h : products.all productShapeOk = true) :
    extract_images (.arr products) base
      = .ok (products.filterMap (extractEntry base)) := by
  unfold extract_images pyIter
  simp [extractImagesLoop_shape base products h, Bind.bind, Except.bind]

/-- C3: for every list of well-shaped product records and every origin,
`extract_images` maps each product to at most one triple
(`filterMap` of the per-product function, so output ordering matches
input ordering and the length is bounded by the input length); the
per-product function skips products with an empty image list, skips a
first image without a usable (truthy) `src`, and otherwise emits the
first image's `src` together with the (defaulted) title and the product
URL `origin ++ "/products/" ++ handle`. -/
theorem extract_images_spec (products : List Json) (base_url : String)
    (hshape : products.all productShapeOk = true) :
    extract_images (.arr products) base_url
      = .ok (products.filterMap (extractEntry base_url)) ∧
    (products.filterMap (extractEntry base_url)).length ≤ products.length ∧
    (∀ fields, (pyLookup fields "images").getD (.arr []) = .arr [] →
      extractEntry base_url (.obj fields) = none) ∧
    (∀ fields first rest ifields,
      (pyLookup fields "images").getD (.arr []) = .arr (first :: rest) →
      first = .obj ifields →
      (pyLookup ifields "src" = none → extractEntry base_url (.obj fields) = none) ∧
      (∀ v, pyLookup ifields "src" = some v → v.truthy = false →
        extractEntry base_url (.obj fields) = none) ∧
      (∀ v, pyLookup ifields "src" = some v → v.truthy = true →
        extractEntry base_url (.obj fields) =
          some (v, (pyLookup fields "title").getD (.str "Unknown Product"),
            base_url ++ "/products/" ++
              ((pyLookup fields "handle").getD (.str "")).pyToString))) := by
  refine ⟨extract_images_shape base_url products hshape,
    List.length_filterMap_le _ _, ?_, ?_⟩
  · intro fields himg
    simp [extractEntry, himg]
  · intro fields first rest ifields himg hfirst
    subst hfirst
    refine ⟨?_, ?_, ?_⟩
    · intro hsrc
      simp [extractEntry, himg, hsrc]
    · intro v hsrc htr
      simp [extractEntry, himg, hsrc, htr]
    · intro v hsrc htr
      simp [extractEntry, himg, hsrc, htr]

/-- Witness for C3: a catalog of two well-shaped products, one with two
images and one with none, yields exactly the first product's entry. -/
theorem extract_images_spec_witness :
    extract_images
        (.arr [.obj [("title", .str "T"), ("handle", .str "h"),
                     ("images", .arr [.obj [("src", .str "u1")],
                                      .obj [("src", .str "u2")]])],
               .obj [("images", .arr [])]])
        "https://myshop.com"
      = .ok ([.obj [("title", .str "T"), ("handle", .str "h"),
                    ("images", .arr [.obj [("src", .str "u1")],
                                     .obj [("src", .str "u2")]])],
              .obj [("images", .arr [])]].filterMap
          (extractEntry "https://myshop.com")) :=
  (extract_images_spec
    [.obj [("title", .str "T"), ("handle", .str "h"),
           ("images", .arr [.obj [("src", .str "u1")],
                            .obj [("src", .str "u2")]])],
     .obj [("images", .arr [])]]
    "https://myshop.com" (by rfl)).1

theorem extractEntry_title {base : String} {fields : List (String × Json)}
    {e : Json × Json × String}
    (h : extractEntry base (.obj fields) = some e) :
    e.2.1 = (pyLookup fields "title").getD (.str "Unknown Product") := by
  cases himg : (pyLookup fields "images").getD (.arr []) with
  | arr imgs =>
      cases imgs with
      | nil => simp [extractEntry, himg] at h
      | cons first rest =>
          cases first with
          | obj ifields =>
              cases hsrc : pyLookup ifields "src" with
              | none => simp [extractEntry, himg, hsrc] at h
              | some v =>
                  simp only [extractEntry, himg, hsrc] at h
                  cases htr : v.truthy with
                  | false =>
                      rw [if_neg (by simp [htr])] at h
                      exact absurd h (by simp)
                  | true =>
                      rw [if_pos htr] at h
                      injection h with h2
                      rw [← h2]
          | null => simp [extractEntry, himg] at h
          | bool b => simp [extractEntry, himg] at h
          | num n => simp [extractEntry, himg] at h
          | str st => simp [extractEntry, himg] at h
          | arr l2 => simp [extractEntry, himg] at h
  | null => simp [extractEntry, himg] at h
  | bool b => simp [extractEntry, himg] at h
  | num n => simp [extractEntry, himg] at h
  | str st => simp [extractEntry, himg] at h
  | obj ofields => simp [extractEntry, himg] at h

/-- C10: whenever a well-shaped product record has no `title` field and
the extractor loop body emits a triple for it, the title of that triple
is exactly the string "Unknown Product". -/
theorem extract_title_defaults (base_url : String) (fields : List (String × Json))
    (hshape : productShapeOk (.obj fields) = true)
    (hti : pyLookup fields "title" = none)
    (e : Json × Json × String)
    (h : extractImagesStep base_url (.obj fields) = .ok (some e)) :
    e.2.1 = .str "Unknown Product" := by
  rw [extractImagesStep_shape base_url (.obj fields) hshape] at h
  have h2 : extractEntry base_url (.obj fields) = some e := by
    injection h
  rw [extractEntry_title h2, hti]
  rfl

/-- Witness for C10: a title-less product with one image yields the
default title. -/
theorem extract_title_defaults_witness :
    (Json.str "u", Json.str "Unknown Product",
      "https://b/products/h").2.1 = Json.str "Unknown Product" :=
  extract_title_defaults "https://b"
    [("handle", .str "h"), ("images", .arr [.obj [("src", .str "u")]])]
    (by rfl) (by rfl) _ (by rfl)

/-! ## Claims about the catalog fetcher (C1, C6) -/

/-- C1, counterexample: the fetcher is not exception-free for every
response the endpoint may produce.  A 200 response whose body decodes to
a JSON array reaches `data.get('products', [])` on a list and raises an
uncaught `AttributeError`; and a 304 (non-2xx, not raised by
`raise_for_status`) with an object body returns its products with no
error message. -/
theorem fetch_unhandled_fault :
    fetch_shopify_products "https://shop.example"
        (fun _ => .response 200 (some (.arr []))) = .error .attributeError ∧
    fetch_shopify_products "https://shop.example"
        (fun _ => .response 304 (some (.obj [("products", .arr [.obj []])]))) =
      .ok (.arr [.obj []], []) :=
  ⟨rfl, rfl⟩

/-- C1 (amended): the fetcher returns an empty list plus a user-visible
error message on any request exception (network error, timeout) and on
any HTTP status in `[400, 600)`; on an undecodable body it returns an
empty list plus the invalid-JSON message; on a JSON-object body outside
`[400, 600)` it returns the `products` field without raising; a decoded
body that is not a JSON object raises an uncaught `AttributeError`.
Statuses below 400 are not treated as failures. -/
theorem fetch_error_handling (base_url : String) (env : String → HttpOutcome) :
    (∀ msg, env (build_api_url base_url) = .requestFailure msg →
      fetch_shopify_products base_url env = .ok (.arr [], [.errorFetchNet msg])) ∧
    (∀ status body, env (build_api_url base_url) = .response status body →
      400 ≤ status → status < 600 →
      fetch_shopify_products base_url env = .ok (.arr [], [.errorFetchHttp status])) ∧
    (∀ status, env (build_api_url base_url) = .response status none →
      ¬(400 ≤ status ∧ status < 600) →
      fetch_shopify_products base_url env = .ok (.arr [], [.errorInvalidJson])) ∧
    (∀ status fields,
      env (build_api_url base_url) = .response status (some (.obj fields)) →
      ¬(400 ≤ status ∧ status < 600) →
      fetch_shopify_products base_url env =
        .ok ((pyLookup fields "products").getD (.arr []), [])) ∧
    (∀ status j, env (build_api_url base_url) = .response status (some j) →
      ¬(400 ≤ status ∧ status < 600) → (∀ fields, j ≠ .obj fields) →
      fetch_shopify_products base_url env = .error .attributeError) := by
  refine ⟨?_, ?_, ?_, ?_, ?_⟩
  · intro msg henv
    simp only [fetch_shopify_products, henv]
  · intro status body henv h4 h6
    simp only [fetch_shopify_products, henv]
    rw [if_pos ⟨h4, h6⟩]
  · intro status henv hst
    simp only [fetch_shopify_products, henv]
    rw [if_neg hst]
  · intro status fields henv hst
    simp only [fetch_shopify_products, henv]
    rw [if_neg hst]
    simp [pyGet]
  · intro status j henv hst hne
    simp only [fetch_shopify_products, henv]
    rw [if_neg hst]
    cases j with
    | obj fields => exact absurd rfl (hne fields)
    | null => simp [pyGet]
    | bool b => simp [pyGet]
    | num n => simp [pyGet]
    | str st => simp [pyGet]
    | arr l => simp [pyGet]

/-- Witness for the amended C1 theorem: a network failure yields an empty
list and a fetch-error message. -/
theorem fetch_error_handling_witness :
    fetch_shopify_products "https://shop.example" (fun _ => .requestFailure "timeout")
      = .ok (.arr [], [.errorFetchNet "timeout"]) :=
  (fetch_error_handling "https://shop.example"
    (fun _ => .requestFailure "timeout")).1 "timeout" rfl

/-- C6, counterexample: a successful fetch whose body decodes as the JSON
number `3` (JSON, but not an object) does not return an empty products
sequence — it raises an uncaught `AttributeError`. -/
theorem fetch_json_nonobject_body :
    fetch_shopify_products "https://shop.example"
        (fun _ => .response 200 (some (.num 3))) = .error .attributeError :=
  rfl

/-- C6 (amended): for every successful fetch whose body decodes as a JSON
**object**, the fetcher returns exactly the value of the `products`
field, and an empty sequence when that field is absent. -/
theorem fetch_returns_products_field (base_url : String) (env : String → HttpOutcome)
    (status : Nat) (fields : List (String × Json))
    (henv : env (build_api_url base_url) = .response status (some (.obj fields)))
    (hst : ¬(400 ≤ status ∧ status < 600)) :
    fetch_shopify_products base_url env =
      .ok ((pyLookup fields "products").getD (.arr []), []) ∧
    (pyLookup fields "products" = none →
      fetch_shopify_products base_url env = .ok (.arr [], [])) := by
  have h1 : fetch_shopify_products base_url env =
      .ok ((pyLookup fields "products").getD (.arr []), []) := by
    simp only [fetch_shopify_products, henv]
    rw [if_neg hst]
    simp [pyGet]
  refine ⟨h1, fun habs => ?_⟩
  rw [h1, habs]
  rfl

/-- Witness for the amended C6 theorem. -/
theorem fetch_returns_products_field_witness :
    fetch_shopify_products "https://shop.example"
        (fun _ => .response 200 (some (.obj [("products", .arr [.num 1])])))
      = .ok ((pyLookup [("products", Json.arr [.num 1])] "products").getD (.arr []), []) :=
  (fetch_returns_products_field "https://shop.example"
    (fun _ => .response 200 (some (.obj [("products", .arr [.num 1])])))
    200 [("products", .arr [.num 1])] rfl (by omega)).1

/-! ## Claims about the main UI pipeline (C8) -/

/-- C8, counterexample: with one product and zero extractable images the
app shows a success message ("Found 1 products."), renders nothing, and
shows **no** advisory notice — the `st.warning` advisory appears only
when the product list itself is empty. -/
theorem app_no_advisory_on_empty_grid :
    runApp "x" (fun _ => .response 200 (some (.obj [("products", .arr [.obj []])]))) 5
      = .ok ⟨[.successFound 1], []⟩ ∧
    UiMsg.warnNoProducts ∉ [UiMsg.successFound 1] :=
  ⟨rfl, by decide⟩

/-- C8 (amended): when the fetch produces a falsy (empty) product value,
the app shows the no-products warning, renders nothing, and does not
raise; when it produces a nonempty list of well-shaped products with zero
extractable images, the app shows the success message, renders nothing,
does not raise — and shows no advisory notice. -/
theorem app_empty_catalog (url_input : String) (env : String → HttpOutcome)
    (cols : Nat) (cleaned : String)
    (hurl : ¬ url_input = "")
    (hclean : clean_shopify_url url_input = some cleaned) :
    (∀ products msgs,
      fetch_shopify_products cleaned env = .ok (products, msgs) →
      products.truthy = false →
      runApp url_input env cols = .ok ⟨msgs ++ [.warnNoProducts], []⟩) ∧
    (∀ l msgs,
      fetch_shopify_products cleaned env = .ok (.arr l, msgs) →
      l ≠ [] →
      l.all productShapeOk = true →
      l.filterMap (extractEntry cleaned) = [] →
      runApp url_input env cols = .ok ⟨msgs ++ [.successFound l.length], []⟩) := by
  constructor
  · intro products msgs hfetch htr
    simp [runApp, hurl, hclean, hfetch, htr,
      Bind.bind, Except.bind, Pure.pure, Except.pure]
  · intro l msgs hfetch hne hshape hempty
    have htrue : (Json.arr l).truthy = true := by
      cases l with
      | nil => exact absurd rfl hne
      | cons a r => rfl
    have hext : extract_images (.arr l) cleaned = .ok [] := by
      rw [extract_images_shape cleaned l hshape, hempty]
    simp [runApp, hurl, hclean, hfetch, htrue, hext, pyLen,
      renderRows, gridBatches, gridBatchesAux_nil,
      Bind.bind, Except.bind, Pure.pure, Except.pure]

/-- Witness for the amended C8 theorem: an empty products array triggers
the warning and renders nothing. -/
theorem app_empty_catalog_witness :
    runApp "x" (fun _ => .response 200 (some (.obj [("products", .arr [])]))) 5
      = .ok ⟨[.warnNoProducts], []⟩ :=
  (app_empty_catalog "x" (fun _ => .response 200 (some (.obj [("products", .arr [])])))
    5 "https://x" (by decide) (by decide)).1 (.arr []) [] rfl rfl

/-! ## Claim about cell markup (C9) -/

set_option maxRecDepth 8192 in
/-- C9: every rendered grid cell interpolates the title, product URL and
image URL verbatim into the emitted markup — the title appears unescaped
both as the `title` attribute value and as the visible text, and no HTML
escaping (`&lt;`, `&amp;`, `&quot;`) is introduced, as the concrete
markup-bearing title shows. -/
theorem cell_markup_verbatim :
    (∀ t : String, titleCellHtml t =
      "<div style=\"text-align:center; margin:0; padding:0; font-size:0.9rem; overflow:hidden; text-overflow:ellipsis; white-space:nowrap;\" title=\""
        ++ t ++ "\">" ++ t ++ "</div>") ∧
    (∀ u i : String, linkCellHtml u i =
      "<a href=\"" ++ u ++ "\" target=\"_blank\"><img src=\"" ++ i
        ++ "\" style=\"width:100%; border-radius:6px;\"></a>") ∧
    (∀ e : Json × Json × String,
      renderCell e = (titleCellHtml e.2.1.pyToString, linkCellHtml e.2.2 e.1.pyToString)) ∧
    (("A<b>\"q\"&".data <:+: (titleCellHtml "A<b>\"q\"&").data) ∧
     ¬("&lt;".data <:+: (titleCellHtml "A<b>\"q\"&").data) ∧
     ¬("&amp;".data <:+: (titleCellHtml "A<b>\"q\"&").data) ∧
     ¬("&quot;".data <:+: (titleCellHtml "A<b>\"q\"&").data)) := by
  refine ⟨fun t => rfl, fun u i => rfl, fun e => rfl,
    ⟨by decide, by decide, by decide, by decide⟩⟩

end Gridify
